import Mathlib

/-!
Verification of `create_issues_from_csv.py` (jira-bulk-issue-automation).

The script reads CSV rows and creates one Jira issue per row over HTTP.
We shallowly embed its pure logic: Python string primitives (`strip`,
`splitlines`, `split`, `rstrip`), the ADF document converter `to_adf_doc`,
the label parser `parse_labels`, payload construction
`create_issue_payload`, the per-row issue creator `create_issue` (with the
HTTP call abstracted as an oracle), and the batch loop of `main`.
-/

namespace JiraCsv

/-- Characters treated as whitespace by Python's `str.strip()` /
`str.isspace()` (the CPython Unicode whitespace set). -/
def pySpaceChars : List Char :=
  [' ', '\t', '\n', '\r', Char.ofNat 0x0b, Char.ofNat 0x0c,
   Char.ofNat 0x1c, Char.ofNat 0x1d, Char.ofNat 0x1e, Char.ofNat 0x1f,
   Char.ofNat 0x85, Char.ofNat 0xa0, Char.ofNat 0x1680,
   Char.ofNat 0x2000, Char.ofNat 0x2001, Char.ofNat 0x2002, Char.ofNat 0x2003,
   Char.ofNat 0x2004, Char.ofNat 0x2005, Char.ofNat 0x2006, Char.ofNat 0x2007,
   Char.ofNat 0x2008, Char.ofNat 0x2009, Char.ofNat 0x200a,
   Char.ofNat 0x2028, Char.ofNat 0x2029, Char.ofNat 0x202f,
   Char.ofNat 0x205f, Char.ofNat 0x3000]

/-- Python `c.isspace()`. -/
def pyIsSpace (c : Char) : Bool := pySpaceChars.contains c

/-- Python `s.strip()`: remove leading and trailing whitespace. -/
def pyStrip (s : String) : String :=
  String.mk (((s.data.dropWhile pyIsSpace).reverse.dropWhile pyIsSpace).reverse)

/-- Line-boundary characters of Python `str.splitlines()` (besides the
two-character boundary CR LF, handled separately). -/
def pyLineBreakChars : List Char :=
  ['\n', '\r', Char.ofNat 0x0b, Char.ofNat 0x0c,
   Char.ofNat 0x1c, Char.ofNat 0x1d, Char.ofNat 0x1e,
   Char.ofNat 0x85, Char.ofNat 0x2028, Char.ofNat 0x2029]

/-- Is `c` a line boundary for `str.splitlines()`? -/
def pyIsLineBreak (c : Char) : Bool := pyLineBreakChars.contains c

/-- Worker for Python `str.splitlines()`: `acc` holds the current line's
characters in reverse.  CR LF counts as a single boundary; a line is
emitted at every boundary, and the final partial line only if nonempty. -/
def splitlinesGo : List Char → List Char → List String
  | [], acc => if acc.isEmpty then [] else [String.mk acc.reverse]
  | '\r' :: '\n' :: rest, acc => String.mk acc.reverse :: splitlinesGo rest []
  | c :: rest, acc =>
    if pyIsLineBreak c then String.mk acc.reverse :: splitlinesGo rest []
    else splitlinesGo rest (c :: acc)

/-- Python `s.splitlines()`. -/
def pySplitlines (s : String) : List String := splitlinesGo s.data []

/-- Python `s.rstrip("/")`: remove all trailing `'/'` characters. -/
def pyRstripSlashes (s : String) : String :=
  String.mk ((s.data.reverse.dropWhile (fun c => c = '/')).reverse)

/-- Worker for Python `s.split(sep)` (single-character separator, no
maxsplit): `acc` holds the current piece in reverse; every separator
occurrence ends a piece, and the final (possibly empty) piece is always
emitted. -/
def pySplitGo (sep : Char) : List Char → List Char → List (List Char)
  | [], acc => [acc.reverse]
  | c :: rest, acc =>
    if c = sep then acc.reverse :: pySplitGo sep rest []
    else pySplitGo sep rest (c :: acc)

/-- Python `s.split(sep)` for a one-character separator. -/
def pySplit (s : String) (sep : Char) : List String :=
  (pySplitGo sep s.data []).map String.mk

/-- A text node of an Atlassian Document Format (ADF) document:
`{"type": "text", "text": ...}`. -/
structure TextNode where
  typeTag : String
  text : String
  deriving Repr, DecidableEq

/-- A paragraph node of an ADF document:
`{"type": "paragraph", "content": [...]}`. -/
structure ParagraphNode where
  typeTag : String
  content : List TextNode
  deriving Repr, DecidableEq

/-- An ADF document: `{"type": "doc", "version": 1, "content": [...]}`. -/
structure AdfDoc where
  typeTag : String
  version : Nat
  content : List ParagraphNode
  deriving Repr, DecidableEq

/-- Embedding of `to_adf_doc` from the script: one paragraph per line of the input,
each holding exactly one text node; an input with no lines (the empty
string) yields a single empty line.  (`text or ""` is the identity here
because the argument is a string, not `None`.) -/
def to_adf_doc (text : String) : AdfDoc :=
  let lines := if (pySplitlines text).isEmpty then [""] else pySplitlines text
  { typeTag := "doc"
    version := 1
    content := lines.map (fun line => { typeTag := "paragraph", content := [{ typeTag := "text", text := line }] }) }

/-- Embedding of `parse_labels` from the script: falsy (empty) input gives `[]`;
otherwise split on commas, strip each piece, and keep the nonempty ones. -/
def parse_labels (value : String) : List String :=
  if value = "" then []
  else ((pySplit value ',').map pyStrip).filter (fun v => v != "")

/-- A CSV row as produced by `csv.DictReader`: a finite map from column
name to cell value, where a cell can be Python `None` (`Option.none`). -/
def Row := List (String × Option String)

/-- Association lookup on a row (`row[col]` when present). -/
def rowLookup : Row → String → Option (Option String)
  | [], _ => none
  | p :: rest, k => if p.1 = k then some p.2 else rowLookup rest k

/-- Python `row.get(csv_col) or ""`: a missing column, a `None` cell and
an empty cell all collapse to the empty string. -/
def cellOrEmpty (row : Row) (k : String) : String :=
  match rowLookup row k with
  | some (some s) => s
  | _ => ""

/-- A value stored in the `fields` dict of the request payload. -/
inductive FieldValue where
  | str (s : String)
  | strList (l : List String)
  | adf (d : AdfDoc)
  | keyRef (key : String)
  | nameRef (name : String)
  | accountRef (accountId : String)
  deriving Repr, DecidableEq

/-- Lookup in an insertion-ordered dict represented as a pair list. -/
def fieldsGet (k : String) : List (String × FieldValue) → Option FieldValue
  | [] => none
  | p :: rest => if p.1 = k then some p.2 else fieldsGet k rest

/-- Python dict assignment `d[k] = v` on the pair-list representation:
replace the value if the key is present, otherwise append. -/
def dictInsert (d : List (String × FieldValue)) (k : String) (v : FieldValue) :
    List (String × FieldValue) :=
  if (fieldsGet k d).isSome then d.map (fun p => if p.1 = k then (k, v) else p)
  else d ++ [(k, v)]

/-- Embedding of `FIELD_MAP` from the script: CSV column name to Jira field id, in
insertion order. -/
def FIELD_MAP : List (String × String) :=
  [("Summary", "summary"), ("Labels", "labels"), ("Description", "description")]

/-- Embedding of `CUSTOM_FIELD_AS_LIST` from the script (empty by default). -/
def CUSTOM_FIELD_AS_LIST : List String := []

/-- One iteration of the `for csv_col, jira_field in FIELD_MAP.items()`
loop of `create_issue_payload`. -/
def applyField (row : Row) (fields : List (String × FieldValue)) (p : String × String) :
    List (String × FieldValue) :=
  let val := pyStrip (cellOrEmpty row p.1)
  if val = "" ∧ p.2 ∈ ["summary"] then fields
  else if p.2 = "labels" then dictInsert fields "labels" (FieldValue.strList (parse_labels val))
  else if p.2 = "description" then dictInsert fields "description" (FieldValue.adf (to_adf_doc val))
  else if "customfield_".data.isPrefixOf p.2.data then
    if p.2 ∈ CUSTOM_FIELD_AS_LIST then
      dictInsert fields p.2 (FieldValue.strList (if val = "" then [] else [val]))
    else dictInsert fields p.2 (FieldValue.str val)
  else dictInsert fields p.2 (FieldValue.str val)

/-- The request payload `{"fields": fields}`. -/
structure Payload where
  fields : List (String × FieldValue)
  deriving Repr, DecidableEq

/-- Embedding of `create_issue_payload` from the script: required project/issuetype
fields, the mapped CSV fields, then optional assignee and parent (each
skipped when its value is falsy). -/
def create_issue_payload (row : Row) (project_key : String) (issue_type : String)
    (epic_key : Option String) (assignee_account_id : Option String) : Payload :=
  let fields0 : List (String × FieldValue) :=
    [("project", FieldValue.keyRef project_key), ("issuetype", FieldValue.nameRef issue_type)]
  let fields1 := FIELD_MAP.foldl (applyField row) fields0
  let fields2 :=
    match assignee_account_id with
    | some a => if a = "" then fields1 else dictInsert fields1 "assignee" (FieldValue.accountRef a)
    | none => fields1
  let fields3 :=
    match epic_key with
    | some e => if e = "" then fields2 else dictInsert fields2 "parent" (FieldValue.keyRef e)
    | none => fields2
  ⟨fields3⟩

/-- The process environment, restricted to the variables the script
reads.  A variable that is unset is `none`. -/
structure Env where
  jiraBaseUrl : Option String
  jiraEmail : Option String
  jiraApiToken : Option String
  jiraProjectKey : Option String
  csvPath : Option String
  jiraIssueType : Option String
  epicKey : Option String
  assigneeAccountId : Option String

/-- Embedding of `env_required` from the script: raises (here `Except.error`) when the
variable is unset or empty (`if not val`). -/
def env_required (key : String) (val : Option String) : Except String String :=
  match val with
  | none => Except.error ("Missing required environment variable: " ++ key)
  | some v =>
    if v = "" then Except.error ("Missing required environment variable: " ++ key)
    else Except.ok v

/-- Embedding of `jira_base_url` from the script: the required base URL with trailing
slashes removed. -/
def jira_base_url (env : Env) : Except String String :=
  match env_required "JIRA_BASE_URL" env.jiraBaseUrl with
  | Except.error e => Except.error e
  | Except.ok v => Except.ok (pyRstripSlashes v)

/-- Embedding of `jira_auth` from the script: the required email and API token. -/
def jira_auth (env : Env) : Except String (String × String) :=
  match env_required "JIRA_EMAIL" env.jiraEmail with
  | Except.error e => Except.error e
  | Except.ok email =>
    match env_required "JIRA_API_TOKEN" env.jiraApiToken with
    | Except.error e => Except.error e
    | Except.ok token => Except.ok (email, token)

/-- The endpoint URL composed in `create_issue`:
`f"{base}/rest/api/3/issue"`. -/
def issue_url (base : String) : String := base ++ "/rest/api/3/issue"

/-- An abstract HTTP response: the status code, the raw body text, and
the result of `resp.json()["key"]` (`some k` when the body parses as JSON
with a `"key"` entry, `none` when parsing or extraction fails). -/
structure HttpResponse where
  status : Nat
  text : String
  jsonKey : Option String

/-- The outbound request `create_issue` performs. -/
structure JiraRequest where
  url : String
  email : String
  token : String
  payload : Payload

/-- The response handling at the end of `create_issue`: raise with status
and body when `status_code >= 300`, otherwise return `resp.json()["key"]`
(raising when the body yields no key). -/
def handle_response (resp : HttpResponse) : Except String String :=
  if 300 ≤ resp.status then Except.error (toString resp.status ++ " " ++ resp.text)
  else
    match resp.jsonKey with
    | some k => Except.ok k
    | none => Except.error "KeyError: key"

/-- Embedding of `create_issue` from the script, with the HTTP POST abstracted as the
oracle `http`.  Environment variables are read per call, exactly as in
the source; any failure surfaces as `Except.error` (caught per row by
`main`). -/
def create_issue (env : Env) (http : JiraRequest → HttpResponse) (row : Row) :
    Except String String :=
  match jira_base_url env with
  | Except.error e => Except.error e
  | Except.ok base =>
    let url := issue_url base
    match env_required "JIRA_PROJECT_KEY" env.jiraProjectKey with
    | Except.error e => Except.error e
    | Except.ok project_key =>
      let issue_type := env.jiraIssueType.getD "Task"
      let payload := create_issue_payload row project_key issue_type env.epicKey env.assigneeAccountId
      match jira_auth env with
      | Except.error e => Except.error e
      | Except.ok auth =>
        handle_response (http { url := url, email := auth.1, token := auth.2, payload := payload })

/-- One per-row outcome line printed by `main`'s loop:
`[<n>] Created <key>` or `[<n>] ERROR <message>`. -/
inductive OutputLine where
  | created (i : Nat) (key : String)
  | errorLine (i : Nat) (msg : String)
  deriving Repr, DecidableEq

/-- Is this outcome line an error line? -/
def OutputLine.isError : OutputLine → Bool
  | OutputLine.errorLine _ _ => true
  | OutputLine.created _ _ => false

/-- The row loop of `main`: `i` is the 1-based position of the next row,
`created` the success count so far.  Each row is attempted; an exception
becomes an ERROR line and the loop continues.  Returns the outcome lines
in order and the final success count. -/
def runRowsFrom (create : Nat → Row → Except String String) :
    Nat → Nat → List Row → List OutputLine × Nat
  | _, created, [] => ([], created)
  | i, created, row :: rest =>
    match create i row with
    | Except.ok key =>
      let r := runRowsFrom create (i + 1) (created + 1) rest
      (OutputLine.created i key :: r.1, r.2)
    | Except.error e =>
      let r := runRowsFrom create (i + 1) created rest
      (OutputLine.errorLine i e :: r.1, r.2)

/-- Python truthiness of `reader.fieldnames`: `None` or the empty list. -/
def headersEmpty : Option (List String) → Bool
  | none => true
  | some hs => hs.isEmpty

/-- The world `main` runs in: the environment, which paths exist on disk,
the parsed CSV header row and data rows, and the HTTP oracle. -/
structure World where
  env : Env
  fileExists : String → Bool
  headers : Option (List String)
  rows : List Row
  http : JiraRequest → HttpResponse

/-- Embedding of `main` from the script: require `CSV_PATH`, require the file to
exist, require headers, then run the row loop.  A fatal error before the
loop is `Except.error`; otherwise the per-row outcome lines and the final
success count are returned. -/
def runMain (w : World) : Except String (List OutputLine × Nat) :=
  match env_required "CSV_PATH" w.env.csvPath with
  | Except.error e => Except.error e
  | Except.ok csv_path =>
    if w.fileExists csv_path = false then Except.error ("CSV not found: " ++ csv_path)
    else if headersEmpty w.headers then Except.error "CSV has no headers."
    else Except.ok (runRowsFrom (fun _ row => create_issue w.env w.http row) 1 0 w.rows)

/-- The number of line boundaries in a character list, counting a CR LF
pair as a single boundary (as `str.splitlines()` does). -/
def countBreaks : List Char → Nat
  | [] => 0
  | [c] => if pyIsLineBreak c then 1 else 0
  | c :: c2 :: rest =>
    if c = '\r' ∧ c2 = '\n' then countBreaks rest + 1
    else (if pyIsLineBreak c then 1 else 0) + countBreaks (c2 :: rest)


/-- Does the character list end in a line boundary? -/
def lastIsBreak : List Char → Bool
  | [] => false
  | [c] => pyIsLineBreak c
  | _ :: c2 :: rest => lastIsBreak (c2 :: rest)


/-- Does the string end with a `'/'` character? -/
def endsWithSlash (s : String) : Bool :=
  match s.data.getLast? with
  | some c => c == '/'
  | none => false


/-- The outcome line the loop prints for the row at 1-based position
`p.1`. -/
def outcomeLine (create : Nat → Row → Except String String) (p : Nat × Row) : OutputLine :=
  match create p.1 p.2 with
  | Except.ok key => OutputLine.created p.1 key
  | Except.error e => OutputLine.errorLine p.1 e


/-- Is this environment value missing in the sense of `env_required`'s
`if not val` check (unset, or set to the empty string)? -/
def envMissing (v : Option String) : Prop := v = none ∨ v = some ""


/-- A `String.mk` is empty exactly when its character list is. -/
lemma mk_eq_empty {l : List Char} : String.mk l = "" ↔ l = [] := by
  constructor
  · intro h
    have := congrArg String.data h
    simpa using this
  · intro h
    subst h
    rfl

/-- Python `s.strip()` returns the empty string exactly when every
character of `s` is whitespace (in particular when `s` is empty). -/
lemma pyStrip_eq_empty_iff {s : String} :
    pyStrip s = "" ↔ s.data.all pyIsSpace = true := by
  unfold pyStrip
  rw [mk_eq_empty, List.reverse_eq_nil_iff, List.dropWhile_eq_nil_iff, List.all_eq_true]
  constructor
  · intro h x hx
    have hsplit := List.takeWhile_append_dropWhile pyIsSpace s.data
    rw [← hsplit] at hx
    rcases List.mem_append.mp hx with hx | hx
    · exact List.mem_takeWhile_imp hx
    · exact h x (List.mem_reverse.mpr hx)
  · intro h x hx
    exact h x ((List.dropWhile_sublist pyIsSpace).mem (List.mem_reverse.mp hx))

/-- The `splitlines` worker returns a nonempty list unless both the
remaining input and the accumulator are empty. -/
lemma splitlinesGo_ne_nil :
    ∀ l acc : List Char, l ≠ [] ∨ acc ≠ [] → splitlinesGo l acc ≠ [] := by
  intro l acc
  induction l, acc using splitlinesGo.induct with
  | case1 acc hacc =>
    intro h
    rcases h with h | h
    · exact absurd rfl h
    · exact absurd (List.isEmpty_iff.mp hacc) h
  | case2 acc hacc =>
    intro _
    simp [splitlinesGo, hacc]
  | case3 rest acc _ =>
    intro _
    simp [splitlinesGo]
  | case4 c rest acc hne hbr _ =>
    intro _
    simp [splitlinesGo, hbr, hne]
  | case5 c rest acc hne hbr ih =>
    intro _
    simpa [splitlinesGo, hbr, hne] using ih (Or.inr (by simp))

/-- A nonempty string has at least one line. -/
lemma pySplitlines_ne_nil {s : String} (h : s ≠ "") : pySplitlines s ≠ [] := by
  apply splitlinesGo_ne_nil
  left
  intro hd
  exact h (String.ext (by simpa using hd))

/-- Claim C2: for every input string, `to_adf_doc` (total and
deterministic by construction) produces a document tagged `"doc"` with
version 1; an empty input yields exactly one paragraph with empty text,
and otherwise there is one paragraph per line of the input, each holding
exactly one text node whose content is that line's text. -/
theorem c2_document_converter (text : String) :
    (to_adf_doc text).typeTag = "doc" ∧ (to_adf_doc text).version = 1 ∧
    (text = "" →
      (to_adf_doc text).content = [⟨"paragraph", [⟨"text", ""⟩]⟩]) ∧
    (text ≠ "" →
      (to_adf_doc text).content =
        (pySplitlines text).map (fun line => ⟨"paragraph", [⟨"text", line⟩]⟩)) := by
  refine ⟨rfl, rfl, ?_, ?_⟩
  · intro h
    subst h
    rfl
  · intro h
    have hne := pySplitlines_ne_nil h
    unfold to_adf_doc
    simp [List.isEmpty_iff, hne]

/-- Witness for C2 at the inputs `""` and `"a\nb"`. -/
theorem c2_document_converter_witness :
    (to_adf_doc "").content = [⟨"paragraph", [⟨"text", ""⟩]⟩] ∧
    (to_adf_doc "a\nb").content =
      (pySplitlines "a\nb").map (fun line => ⟨"paragraph", [⟨"text", line⟩]⟩) :=
  ⟨(c2_document_converter "").2.2.1 rfl, (c2_document_converter "a\nb").2.2.2 (by decide)⟩

/-- Length of the `splitlines` worker's output: one line per boundary,
plus one more when the final partial line (input remainder plus
accumulator) is nonempty. -/
lemma splitlinesGo_length :
    ∀ l acc : List Char,
      (splitlinesGo l acc).length =
        countBreaks l +
          (if l = [] then (if acc = [] then 0 else 1)
           else if lastIsBreak l then 0 else 1) := by
  intro l acc
  induction l, acc using splitlinesGo.induct with
  | case1 acc hacc =>
    simp [splitlinesGo, countBreaks, hacc, List.isEmpty_iff.mp hacc]
  | case2 acc hacc =>
    cases acc with
    | nil => simp at hacc
    | cons a as => simp [splitlinesGo, countBreaks]
  | case3 rest acc ih =>
    cases rest with
    | nil =>
      simp [splitlinesGo, countBreaks, lastIsBreak,
        (by decide : pyIsLineBreak '\n' = true)]
    | cons r rs =>
      simp [splitlinesGo, countBreaks, lastIsBreak, ih,
        (by decide : pyIsLineBreak '\n' = true), (by decide : pyIsLineBreak '\r' = true)]
      all_goals first
      | (split <;> omega)
      | omega
  | case4 c rest acc hne hbr ih =>
    cases rest with
    | nil =>
      simp [splitlinesGo, countBreaks, lastIsBreak, hbr]
    | cons r rs =>
      have hcond : ¬(c = '\r' ∧ r = '\n') := by
        rintro ⟨h1, h2⟩
        exact hne rs h1 (by rw [h2])
      simp [splitlinesGo, countBreaks, lastIsBreak, ih, hbr, hcond]
      all_goals first
      | (split <;> omega)
      | omega
  | case5 c rest acc hne hbr ih =>
    cases rest with
    | nil =>
      simp [splitlinesGo, countBreaks, lastIsBreak, hbr]
    | cons r rs =>
      have hcond : ¬(c = '\r' ∧ r = '\n') := by
        rintro ⟨h1, h2⟩
        exact hne rs h1 (by rw [h2])
      simp [splitlinesGo, countBreaks, lastIsBreak, ih, hbr, hcond]
      all_goals first
      | (split <;> omega)
      | omega

/-- Claim C9: a final line terminator adds no trailing empty paragraph:
`to_adf_doc "line1\n"` has exactly one paragraph, `to_adf_doc "\n"` has
exactly one paragraph with empty text and equals `to_adf_doc ""`, and in
general a nonempty input ending in a line boundary yields exactly one
paragraph per line boundary (none for the empty remainder after the last
one). -/
theorem c9_no_trailing_empty_paragraph :
    (to_adf_doc "line1\n").content = [⟨"paragraph", [⟨"text", "line1"⟩]⟩] ∧
    (to_adf_doc "\n").content = [⟨"paragraph", [⟨"text", ""⟩]⟩] ∧
    to_adf_doc "\n" = to_adf_doc "" ∧
    ∀ s : String, s ≠ "" → lastIsBreak s.data = true →
      (to_adf_doc s).content.length = countBreaks s.data := by
  refine ⟨by decide, by decide, by decide, ?_⟩
  intro s hne hbr
  have h1 : splitlinesGo s.data [] ≠ [] := pySplitlines_ne_nil hne
  have hd : s.data ≠ [] := fun h => hne (String.ext (by simpa using h))
  have hlen := splitlinesGo_length s.data []
  rw [if_neg hd, if_pos hbr] at hlen
  unfold to_adf_doc
  simp [List.isEmpty_iff, h1, pySplitlines]
  omega

/-- Witness for C9's universal part at the input `"a\n"`. -/
theorem c9_no_trailing_empty_paragraph_witness :
    (to_adf_doc "a\n").content.length = countBreaks "a\n".data :=
  c9_no_trailing_empty_paragraph.2.2.2 "a\n" (by decide) (by decide)

/-- Dropping while `q` holds skips a leading block of elements
satisfying `q`. -/
lemma dropWhile_replicate_append {q : Char → Bool} {a : Char} (hq : q a = true)
    (n : Nat) (m : List Char) :
    List.dropWhile q (List.replicate n a ++ m) = List.dropWhile q m := by
  induction n with
  | zero => rfl
  | succ k ih => simp [List.replicate_succ, List.dropWhile_cons, hq, ih]

/-- The head of `dropWhile q` never satisfies `q`. -/
lemma head_dropWhile_not {q : Char → Bool} :
    ∀ (m : List Char) (c : Char), (List.dropWhile q m).head? = some c → q c = false := by
  intro m
  induction m with
  | nil => intro c h; simp at h
  | cons a rest ih =>
    intro c h
    by_cases ha : q a = true
    · rw [List.dropWhile_cons, if_pos ha] at h
      exact ih c h
    · rw [List.dropWhile_cons, if_neg ha] at h
      simp at h
      subst h
      simpa using ha

/-- Claim C10: `rstrip("/")` makes base URLs that differ only in
trailing slashes yield the same string, hence the same composed endpoint
URL, and the stripped base never ends in `'/'` (so the composed URL has
no doubled slash at the junction). -/
theorem c10_trailing_slashes (s : String) (n : Nat) :
    pyRstripSlashes (s ++ String.mk (List.replicate n '/')) = pyRstripSlashes s ∧
    issue_url (pyRstripSlashes (s ++ String.mk (List.replicate n '/'))) =
      issue_url (pyRstripSlashes s) ∧
    endsWithSlash (pyRstripSlashes s) = false := by
  have hdata : (s ++ String.mk (List.replicate n '/')).data = s.data ++ List.replicate n '/' := by
    cases s
    rfl
  have h1 : pyRstripSlashes (s ++ String.mk (List.replicate n '/')) = pyRstripSlashes s := by
    unfold pyRstripSlashes
    rw [hdata, List.reverse_append, List.reverse_replicate,
      dropWhile_replicate_append (by simp) n]
  refine ⟨h1, by rw [h1], ?_⟩
  unfold endsWithSlash pyRstripSlashes
  rw [show (String.mk ((s.data.reverse.dropWhile (fun c => c = '/')).reverse)).data =
      (s.data.reverse.dropWhile (fun c => c = '/')).reverse from rfl]
  rw [List.getLast?_reverse]
  cases hh : (s.data.reverse.dropWhile (fun c => c = '/')).head? with
  | none => rfl
  | some c =>
    have := head_dropWhile_not s.data.reverse c hh
    simp at this
    simp [this]

/-- Witness for C10 at a concrete base URL with two trailing slashes. -/
theorem c10_trailing_slashes_witness :
    pyRstripSlashes ("https://x.example.com" ++ String.mk (List.replicate 2 '/')) =
      pyRstripSlashes "https://x.example.com" ∧
    issue_url (pyRstripSlashes ("https://x.example.com" ++ String.mk (List.replicate 2 '/'))) =
      issue_url (pyRstripSlashes "https://x.example.com") ∧
    endsWithSlash (pyRstripSlashes "https://x.example.com") = false :=
  c10_trailing_slashes "https://x.example.com" 2

/-- The Python `split` worker agrees with the library's `splitOnP`, up
to the pending accumulator being prepended to the first piece. -/
lemma pySplitGo_eq_splitOnP (sep : Char) :
    ∀ (l acc : List Char),
      pySplitGo sep l acc =
        List.modifyHead (fun h => acc.reverse ++ h)
          (List.splitOnP (fun c => c == sep) l) := by
  intro l
  induction l with
  | nil =>
    intro acc
    simp [pySplitGo, List.splitOnP_nil]
  | cons c rest ih =>
    intro acc
    by_cases h : c = sep
    · obtain ⟨h0, t0, he⟩ :=
        List.exists_cons_of_ne_nil (List.splitOnP_ne_nil (fun c => c == sep) rest)
      simp [pySplitGo, h, List.splitOnP_cons, ih, he, List.modifyHead_cons]
    · have hb : (c == sep) = false := by simp [h]
      simp [pySplitGo, h, List.splitOnP_cons, hb, ih, List.modifyHead_modifyHead,
        Function.comp_def]

/-- Python `s.split(",")` is `List.splitOn ','` on the character list. -/
lemma pySplit_eq_splitOn (s : String) :
    pySplit s ',' = (s.data.splitOn ',').map String.mk := by
  unfold pySplit List.splitOn
  rw [pySplitGo_eq_splitOnP]
  obtain ⟨h0, t0, he⟩ :=
    List.exists_cons_of_ne_nil (List.splitOnP_ne_nil (fun c => c == ',') s.data)
  simp [he, List.modifyHead_cons]

/-- Claim C6: `parse_labels` maps the empty (falsy) string to `[]`, and
in general splits on commas, strips each piece, and keeps the nonempty
pieces in order (duplicates preserved); in particular
`parse_labels "a, b ,,c" = ["a", "b", "c"]`. -/
theorem c6_parse_labels (v : String) :
    parse_labels v =
      ((v.data.splitOn ',').map (fun cs => pyStrip (String.mk cs))).filter
        (fun piece => piece != "") ∧
    parse_labels "" = [] ∧
    parse_labels "a, b ,,c" = ["a", "b", "c"] := by
  refine ⟨?_, rfl, by decide⟩
  by_cases h : v = ""
  · subst h
    rfl
  · rw [parse_labels, if_neg h, pySplit_eq_splitOn]
    simp [List.map_map, Function.comp_def]

/-- Full characterization of the row loop: one outcome line per row in
order, and the final count is the starting count plus the number of
successful rows. -/
lemma runRowsFrom_eq (create : Nat → Row → Except String String) :
    ∀ (rows : List Row) (i c : Nat),
      runRowsFrom create i c rows =
        ((List.enumFrom i rows).map (outcomeLine create),
         c + (List.enumFrom i rows).countP (fun p => (create p.1 p.2).isOk)) := by
  intro rows
  induction rows with
  | nil =>
    intro i c
    simp [runRowsFrom, List.enumFrom]
  | cons row rest ih =>
    intro i c
    cases h : create i row with
    | ok key =>
      simp [runRowsFrom, h, List.enumFrom, outcomeLine, ih, List.countP_cons, Except.isOk, Except.toBool]
      omega
    | error e =>
      simp [runRowsFrom, h, List.enumFrom, outcomeLine, ih, List.countP_cons, Except.isOk, Except.toBool]

/-- Claim C4: the batch loop processes the rows in order, reports every
row's outcome exactly once with its 1-based position (so a failing row
never stops the loop), and the final count equals the number of
successful rows. -/
theorem c4_batch_runner (create : Nat → Row → Except String String) (rows : List Row) :
    runRowsFrom create 1 0 rows =
      ((List.enumFrom 1 rows).map (outcomeLine create),
       (List.enumFrom 1 rows).countP (fun p => (create p.1 p.2).isOk)) ∧
    (runRowsFrom create 1 0 rows).1.length = rows.length := by
  have h := runRowsFrom_eq create rows 1 0
  refine ⟨by simpa using h, ?_⟩
  rw [h]
  simp [List.enumFrom_length]

/-- The check `env_required` fails exactly on missing values. -/
lemma env_required_missing (k : String) {v : Option String} (h : envMissing v) :
    env_required k v = Except.error ("Missing required environment variable: " ++ k) := by
  rcases h with h | h <;> subst h <;> simp [env_required]

/-- If any of the four per-request environment variables is missing,
`create_issue` raises (is an `Except.error`) for every row. -/
lemma create_issue_error_of_missing (env : Env) (http : JiraRequest → HttpResponse) (row : Row)
    (h : envMissing env.jiraBaseUrl ∨ envMissing env.jiraEmail ∨
         envMissing env.jiraApiToken ∨ envMissing env.jiraProjectKey) :
    ∃ e, create_issue env http row = Except.error e := by
  cases hb : jira_base_url env with
  | error e => exact ⟨e, by simp [create_issue, hb]⟩
  | ok base =>
    cases hp : env_required "JIRA_PROJECT_KEY" env.jiraProjectKey with
    | error e => exact ⟨e, by simp [create_issue, hb, hp]⟩
    | ok pk =>
      cases ha : jira_auth env with
      | error e => exact ⟨e, by simp [create_issue, hb, hp, ha]⟩
      | ok auth =>
        exfalso
        have hnb : ¬ envMissing env.jiraBaseUrl := by
          intro hm
          unfold jira_base_url at hb
          rw [env_required_missing "JIRA_BASE_URL" hm] at hb
          simp at hb
        have hnp : ¬ envMissing env.jiraProjectKey := by
          intro hm
          rw [env_required_missing "JIRA_PROJECT_KEY" hm] at hp
          simp at hp
        have hnem : ¬ envMissing env.jiraEmail := by
          intro hm
          unfold jira_auth at ha
          rw [env_required_missing "JIRA_EMAIL" hm] at ha
          simp at ha
        have hnt : ¬ envMissing env.jiraApiToken := by
          intro hm
          unfold jira_auth at ha
          cases he : env_required "JIRA_EMAIL" env.jiraEmail with
          | error e => rw [he] at ha; simp at ha
          | ok em => rw [he, env_required_missing "JIRA_API_TOKEN" hm] at ha; simp at ha
        rcases h with hm | hm | hm | hm
        exacts [hnb hm, hnem hm, hnt hm, hnp hm]

/-- Counterexample to claim C1 as stated: with `JIRA_BASE_URL` absent
(but `CSV_PATH` present and the file readable) the run does not abort
before the rows; the single row is attempted and produces a per-row
ERROR outcome line. -/
theorem c1_config_errors_counterexample :
    runMain ⟨⟨none, some "user@example.com", some "tok", some "PROJ", some "rows.csv",
        none, none, none⟩,
      fun _ => true, some ["Summary"], [[("Summary", some "hi")]],
      fun _ => ⟨201, "", some "PROJ-1"⟩⟩ =
    Except.ok ([OutputLine.errorLine 1 "Missing required environment variable: JIRA_BASE_URL"], 0) := by
  rfl

/-- Claim C1 (amended): only a missing input-file path (or missing file
or headers) aborts the run fatally before any row, with no outcome
lines; a missing base URL, email, token or project key is instead caught
per row — every row is still attempted and produces an ERROR outcome
line, and the final count is 0. -/
theorem c1_config_errors_amended (w : World) :
    (envMissing w.env.csvPath →
      runMain w = Except.error ("Missing required environment variable: " ++ "CSV_PATH")) ∧
    (∀ p, w.env.csvPath = some p → p ≠ "" → w.fileExists p = true →
      headersEmpty w.headers = false →
      (envMissing w.env.jiraBaseUrl ∨ envMissing w.env.jiraEmail ∨
       envMissing w.env.jiraApiToken ∨ envMissing w.env.jiraProjectKey) →
      ∃ outs, runMain w = Except.ok (outs, 0) ∧ outs.length = w.rows.length ∧
        ∀ o ∈ outs, o.isError = true) := by
  constructor
  · intro hm
    simp [runMain, env_required_missing "CSV_PATH" hm]
  · intro p hp hpne hfe hhe hmiss
    have hreq : env_required "CSV_PATH" w.env.csvPath = Except.ok p := by
      rw [hp]
      simp [env_required, hpne]
    have hcount :
        (List.enumFrom 1 w.rows).countP
          (fun pr => (create_issue w.env w.http pr.2).isOk) = 0 := by
      rw [List.countP_eq_zero]
      intro pr _
      obtain ⟨e, he⟩ := create_issue_error_of_missing w.env w.http pr.2 hmiss
      simp [he, Except.isOk, Except.toBool]
    refine ⟨(List.enumFrom 1 w.rows).map
        (outcomeLine (fun _ row => create_issue w.env w.http row)), ?_, ?_, ?_⟩
    · simp only [runMain]
      rw [hreq]
      simp only [hfe, hhe, Bool.true_eq_false, Bool.false_eq_true, if_false]
      rw [runRowsFrom_eq]
      simpa using hcount
    · simp [List.enumFrom_length]
    · intro o ho
      obtain ⟨pr, _, rfl⟩ := List.mem_map.mp ho
      obtain ⟨e, he⟩ := create_issue_error_of_missing w.env w.http pr.2 hmiss
      simp [outcomeLine, he, OutputLine.isError]

/-- Witness for the amended C1: a world missing `CSV_PATH` aborts
fatally, and the counterexample world (missing base URL) runs all rows
with error outcomes. -/
theorem c1_config_errors_witness :
    runMain ⟨⟨some "http://x", some "e", some "t", some "P", none, none, none, none⟩,
        fun _ => true, some ["Summary"], [], fun _ => ⟨201, "", some "K"⟩⟩ =
      Except.error ("Missing required environment variable: " ++ "CSV_PATH") ∧
    ∃ outs,
      runMain ⟨⟨none, some "user@example.com", some "tok", some "PROJ", some "rows.csv",
          none, none, none⟩,
        fun _ => true, some ["Summary"], [[("Summary", some "hi")]],
        fun _ => ⟨201, "", some "PROJ-1"⟩⟩ = Except.ok (outs, 0) ∧
      outs.length = [[("Summary", (some "hi" : Option String))]].length ∧
      ∀ o ∈ outs, o.isError = true :=
  ⟨(c1_config_errors_amended _).1 (Or.inl rfl),
   (c1_config_errors_amended _).2 "rows.csv" rfl (by decide) rfl rfl (Or.inl (Or.inl rfl))⟩

/-- Lookup distributes over append. -/
lemma fieldsGet_append (k : String) (l1 l2 : List (String × FieldValue)) :
    fieldsGet k (l1 ++ l2) = ((fieldsGet k l1).or (fieldsGet k l2)) := by
  induction l1 with
  | nil => simp [fieldsGet]
  | cons p rest ih =>
    by_cases hp : p.1 = k
    · simp [fieldsGet, hp]
    · simp [fieldsGet, hp, ih]

/-- Replacing the value stored at key `k` leaves other lookups alone. -/
lemma fieldsGet_map_ne (k k' : String) (v : FieldValue) (h : k' ≠ k) :
    ∀ d : List (String × FieldValue),
      fieldsGet k' (d.map (fun p => if p.1 = k then (k, v) else p)) = fieldsGet k' d := by
  intro d
  induction d with
  | nil => rfl
  | cons p rest ih =>
    by_cases hp : p.1 = k
    · have hk : k ≠ k' := Ne.symm h
      simp [fieldsGet, hp, hk, ih]
    · by_cases hp' : p.1 = k'
      · simp [fieldsGet, hp, hp', h]
      · simp [fieldsGet, hp, hp', ih]

/-- Replacing the value stored at a present key `k` makes lookup of `k`
return the new value. -/
lemma fieldsGet_map_self (k : String) (v : FieldValue) :
    ∀ d : List (String × FieldValue), (fieldsGet k d).isSome = true →
      fieldsGet k (d.map (fun p => if p.1 = k then (k, v) else p)) = some v := by
  intro d
  induction d with
  | nil =>
    intro hs
    simp [fieldsGet] at hs
  | cons p rest ih =>
    intro hs
    by_cases hp : p.1 = k
    · simp [fieldsGet, hp]
    · simp only [List.map_cons, if_neg hp, fieldsGet, hp, if_false]
      exact ih (by simpa [fieldsGet, hp] using hs)

/-- Looking up one key is unaffected by inserting another. -/
lemma fieldsGet_dictInsert_ne (d : List (String × FieldValue)) (k k' : String)
    (v : FieldValue) (h : k' ≠ k) :
    fieldsGet k' (dictInsert d k v) = fieldsGet k' d := by
  by_cases hs : (fieldsGet k d).isSome = true
  · rw [dictInsert, if_pos hs]
    exact fieldsGet_map_ne k k' v h d
  · rw [dictInsert, if_neg hs]
    rw [fieldsGet_append]
    cases hc : fieldsGet k' d
    · simp [Option.or, fieldsGet, Ne.symm h]
    · simp [Option.or]

/-- Looking up the inserted key returns the inserted value. -/
lemma fieldsGet_dictInsert_self (d : List (String × FieldValue)) (k : String)
    (v : FieldValue) :
    fieldsGet k (dictInsert d k v) = some v := by
  by_cases hs : (fieldsGet k d).isSome = true
  · rw [dictInsert, if_pos hs]
    exact fieldsGet_map_self k v d hs
  · rw [dictInsert, if_neg hs]
    rw [fieldsGet_append]
    cases hc : fieldsGet k d
    · simp [Option.or, fieldsGet]
    · exact absurd (by simp [hc]) hs

/-- The optional assignee/parent steps of `create_issue_payload` do not
affect lookups of other keys. -/
lemma fieldsGet_payload_core (row : Row) (pk it : String) (ek ak : Option String)
    (k : String) (hka : k ≠ "assignee") (hkp : k ≠ "parent") :
    fieldsGet k (create_issue_payload row pk it ek ak).fields =
      fieldsGet k (FIELD_MAP.foldl (applyField row)
        [("project", FieldValue.keyRef pk), ("issuetype", FieldValue.nameRef it)]) := by
  unfold create_issue_payload
  rcases ak with _ | a <;> rcases ek with _ | e
  · rfl
  · by_cases he : e = "" <;> simp [he, fieldsGet_dictInsert_ne, hkp]
  · by_cases ha : a = "" <;> simp [ha, fieldsGet_dictInsert_ne, hka]
  · by_cases he : e = "" <;> by_cases ha : a = "" <;>
      simp [he, ha, fieldsGet_dictInsert_ne, hka, hkp]

/-- Explicit form of the fields accumulated by the `FIELD_MAP` loop:
project and issuetype, then summary (only when its trimmed cell is
nonempty), then labels and description (always). -/
lemma foldl_fields_eq (row : Row) (pk it : String) :
    FIELD_MAP.foldl (applyField row)
      [("project", FieldValue.keyRef pk), ("issuetype", FieldValue.nameRef it)] =
    ((if pyStrip (cellOrEmpty row "Summary") = "" then
        [("project", FieldValue.keyRef pk), ("issuetype", FieldValue.nameRef it)]
      else
        [("project", FieldValue.keyRef pk), ("issuetype", FieldValue.nameRef it)] ++
          [("summary", FieldValue.str (pyStrip (cellOrEmpty row "Summary")))]) ++
      [("labels", FieldValue.strList (parse_labels (pyStrip (cellOrEmpty row "Labels"))))]) ++
      [("description", FieldValue.adf (to_adf_doc (pyStrip (cellOrEmpty row "Description"))))] := by
  by_cases hsv : pyStrip (cellOrEmpty row "Summary") = "" <;>
    simp [FIELD_MAP, applyField, CUSTOM_FIELD_AS_LIST, hsv, dictInsert, fieldsGet,
      (by decide : ("customfield_".data.isPrefixOf "summary".data) = false),
      (by decide : ("customfield_".data.isPrefixOf "labels".data) = false),
      (by decide : ("customfield_".data.isPrefixOf "description".data) = false)]

/-- The `"summary"` entry of the payload: absent when the trimmed cell
is empty, the trimmed cell otherwise. -/
lemma fieldsGet_summary (row : Row) (pk it : String) (ek ak : Option String) :
    fieldsGet "summary" (create_issue_payload row pk it ek ak).fields =
      (if pyStrip (cellOrEmpty row "Summary") = "" then none
       else some (FieldValue.str (pyStrip (cellOrEmpty row "Summary")))) := by
  rw [fieldsGet_payload_core row pk it ek ak "summary" (by decide) (by decide),
    foldl_fields_eq]
  by_cases hsv : pyStrip (cellOrEmpty row "Summary") = "" <;>
    simp [hsv, fieldsGet_append, fieldsGet, Option.or]

/-- Claim C5: the payload has no `"summary"` entry when the cell mapped
to summary is empty or whitespace-only, and otherwise has the trimmed
cell value under `"summary"`. -/
theorem c5_summary_skip (row : Row) (pk it : String) (ek ak : Option String) :
    ((cellOrEmpty row "Summary").data.all pyIsSpace = true →
      fieldsGet "summary" (create_issue_payload row pk it ek ak).fields = none) ∧
    ((cellOrEmpty row "Summary").data.all pyIsSpace = false →
      fieldsGet "summary" (create_issue_payload row pk it ek ak).fields =
        some (FieldValue.str (pyStrip (cellOrEmpty row "Summary")))) := by
  constructor
  · intro hall
    rw [fieldsGet_summary, if_pos (pyStrip_eq_empty_iff.mpr hall)]
  · intro hall
    rw [fieldsGet_summary, if_neg ?_]
    intro hs
    rw [pyStrip_eq_empty_iff] at hs
    rw [hs] at hall
    exact absurd hall (by simp)

/-- Witness for C5: a whitespace-only summary cell is skipped, a
nonblank one is kept trimmed. -/
theorem c5_summary_skip_witness :
    fieldsGet "summary"
      (create_issue_payload [("Summary", some "  ")] "P" "Task" none none).fields = none ∧
    fieldsGet "summary"
      (create_issue_payload [("Summary", some " Fix bug ")] "P" "Task" none none).fields =
      some (FieldValue.str (pyStrip (cellOrEmpty [("Summary", some " Fix bug ")] "Summary"))) :=
  ⟨(c5_summary_skip [("Summary", some "  ")] "P" "Task" none none).1 (by decide),
   (c5_summary_skip [("Summary", some " Fix bug ")] "P" "Task" none none).2 (by decide)⟩

/-- Claim C7: a configured column that is missing from the row (or whose
cell is `None`) is treated as the empty string: payload construction
completes and agrees with the same row carrying an explicit empty cell. -/
theorem c7_missing_column (row : Row) (col pk it : String) (ek ak : Option String)
    (h : rowLookup row col = none ∨ rowLookup row col = some none) :
    cellOrEmpty row col = "" ∧
    create_issue_payload ((col, some "") :: row) pk it ek ak =
      create_issue_payload row pk it ek ak := by
  have hcell : cellOrEmpty row col = "" := by
    rcases h with h | h <;> simp [cellOrEmpty, h]
  refine ⟨hcell, ?_⟩
  have hext : ∀ c, cellOrEmpty ((col, some "") :: row) c = cellOrEmpty row c := by
    intro c
    by_cases hc : col = c
    · subst hc
      rw [hcell]
      simp [cellOrEmpty, rowLookup]
    · simp [cellOrEmpty, rowLookup, hc]
  unfold create_issue_payload
  simp only [FIELD_MAP, List.foldl_cons, List.foldl_nil, applyField]
  rw [hext "Summary", hext "Labels", hext "Description"]

/-- Witness for C7: a row with no `"Summary"` column builds the same
payload as one whose `"Summary"` cell is the empty string. -/
theorem c7_missing_column_witness :
    cellOrEmpty ([] : Row) "Summary" = "" ∧
    create_issue_payload [("Summary", some "")] "P" "Task" none none =
      create_issue_payload [] "P" "Task" none none :=
  c7_missing_column [] "Summary" "P" "Task" none none (Or.inl rfl)

/-- Claim C8: the payload always carries a `"labels"` entry — the parsed
label list of the trimmed cell — even when the cell is blank, in which
case the entry is the empty list (unlike `"summary"`, which is omitted). -/
theorem c8_labels_always_present (row : Row) (pk it : String) (ek ak : Option String) :
    fieldsGet "labels" (create_issue_payload row pk it ek ak).fields =
      some (FieldValue.strList (parse_labels (pyStrip (cellOrEmpty row "Labels")))) ∧
    fieldsGet "labels" (create_issue_payload [] pk it ek ak).fields =
      some (FieldValue.strList []) := by
  have hgen : ∀ r : Row,
      fieldsGet "labels" (create_issue_payload r pk it ek ak).fields =
        some (FieldValue.strList (parse_labels (pyStrip (cellOrEmpty r "Labels")))) := by
    intro r
    rw [fieldsGet_payload_core r pk it ek ak "labels" (by decide) (by decide),
      foldl_fields_eq]
    by_cases hsv : pyStrip (cellOrEmpty r "Summary") = "" <;>
      simp [hsv, fieldsGet_append, fieldsGet, Option.or]
  exact ⟨hgen row, by rw [hgen []]; rfl⟩

/-- Counterexample to claim C3 as stated: a response with status code
100 — below the 2xx range, hence not a 2xx status — whose body carries a
key still succeeds, because the code only rejects `status_code >= 300`. -/
theorem c3_status_check_counterexample :
    handle_response ⟨100, "", some "PROJ-1"⟩ = Except.ok "PROJ-1" ∧ 100 < 200 :=
  ⟨rfl, by decide⟩

/-- Claim C3 (amended): issue creation succeeds, returning the key
extracted from the JSON body, iff the status code is below 300 and the
key is extractable; a status of 300 or more signals an error carrying
the status code and body; a status below 300 without an extractable key
signals the extraction failure. -/
theorem c3_status_check_amended (resp : HttpResponse) :
    (300 ≤ resp.status →
      handle_response resp = Except.error (toString resp.status ++ " " ++ resp.text)) ∧
    (resp.status < 300 → ∀ k, resp.jsonKey = some k →
      handle_response resp = Except.ok k) ∧
    (resp.status < 300 → resp.jsonKey = none →
      handle_response resp = Except.error "KeyError: key") := by
  refine ⟨?_, ?_, ?_⟩
  · intro h
    simp [handle_response, h]
  · intro h k hk
    simp [handle_response, Nat.not_le.mpr h, hk]
  · intro h hk
    simp [handle_response, Nat.not_le.mpr h, hk]

/-- Witness for the amended C3 at concrete 404, 201 and 204 responses. -/
theorem c3_status_check_witness :
    handle_response ⟨404, "not found", none⟩ =
      Except.error (toString (404 : Nat) ++ " " ++ "not found") ∧
    handle_response ⟨201, "", some "PROJ-1"⟩ = Except.ok "PROJ-1" ∧
    handle_response ⟨204, "", none⟩ = Except.error "KeyError: key" :=
  ⟨(c3_status_check_amended ⟨404, "not found", none⟩).1 (by decide),
   (c3_status_check_amended ⟨201, "", some "PROJ-1"⟩).2.1 (by decide) "PROJ-1" rfl,
   (c3_status_check_amended ⟨204, "", none⟩).2.2 (by decide) rfl⟩

example : pySplitlines "a\nb" = ["a", "b"] := by decide
example : pySplitlines "a\n" = ["a"] := by decide
example : pySplitlines "\n" = [""] := by decide
example : pySplitlines "" = [] := by decide
example : pySplitlines "a\r\nb" = ["a", "b"] := by decide
example : pySplit "a,,b" ',' = ["a", "", "b"] := by decide
example : pySplit "" ',' = [""] := by decide
example : parse_labels "a, b ,,c" = ["a", "b", "c"] := by decide
example : pyStrip "  a b " = "a b" := by decide
example : pyRstripSlashes "http://x//" = "http://x" := by decide

end JiraCsv
